import Mathlib

/-!
# Verification of the KEITHLEY-Instruments controllers

Shallow embedding of the two instrument-control applications:

* `Pico`  — `src/Picoammeter/src/pico_controller.py` (`KeithleyApp`)
* `Nano`  — `src/Nanovoltmeter/src/Nanovoltmeter_controller.py` (`KeithleyDeltaApp`)

Real time (`time.time()`) and instrument replies are modelled as inputs:
every handler takes the wall-clock value and the outcome of each fallible
instrument operation as explicit parameters.  Numeric values (times,
readings, currents) are modelled as rationals; the claims under study are
structural (ordering, accounting identities, index bookkeeping) and do not
depend on floating-point rounding.
-/

namespace KeithleySpec

namespace Py

/-- Python `str.strip()` with no argument: remove leading and trailing
whitespace. -/
def strip (s : String) : String :=
  ⟨((s.data.dropWhile Char.isWhitespace).reverse.dropWhile
      Char.isWhitespace).reverse⟩

/-- Split a character list at every occurrence of `sep` (Python
`str.split(sep)` keeps empty fields). -/
def splitCh (sep : Char) : List Char → List (List Char)
  | [] => [[]]
  | c :: cs =>
    if c = sep then [] :: splitCh sep cs
    else
      match splitCh sep cs with
      | [] => [[c]]
      | h :: t => (c :: h) :: t

/-- Python `raw.split(",")`. -/
def splitComma (s : String) : List String :=
  (splitCh (Char.ofNat 44) s.data).map (fun l => ⟨l⟩)

end Py

namespace Pico

/-- The shared mutable state of `KeithleyApp` that the acquisition logic
touches: the data lists, the run-state flags, and the pause/resume
accounting fields (`__init__`, lines 38–46 of `pico_controller.py`). -/
structure St where
  readings : List ℚ
  timestamps : List ℚ
  running : Bool
  paused : Bool
  total_run_time : ℚ
  last_resume_time : Option ℚ
deriving DecidableEq, Repr

/-- Initial state set up in `__init__`. -/
def St.init : St :=
  { readings := [], timestamps := [], running := false, paused := false,
    total_run_time := 0, last_resume_time := none }

/-- Per-handler observable output: data points emitted via
`signals.new_data`, status messages, and SCPI commands sent to the
instrument. -/
structure Out where
  points : List (ℚ × ℚ)
  msgs : List String
  cmds : List String
deriving DecidableEq, Repr

/-- The SCPI commands issued by `setup_instrument` (lines 59–71), in
order. -/
def setupCmds : List String :=
  ["*RST", "*CLS", "FUNC \x27CURR:DC\x27", "CONF:CURR",
   "SENS:CURR:RANG:AUTO ON", "SENS:CURR:NPLC 3", "SENS:AVER:STAT ON",
   "SENS:AVER:COUN 5", "SENS:AVER:TCON REP", "TRIG:SOUR IMM", "TRIG:COUN 1"]

/-- `play_reading` (lines 192–207).  `t` is the value of `time.time()` at
the press.  Already running and not paused: no state change.  Otherwise
`setup_instrument` is called when neither running nor paused, then
`running := True`, `paused := False`, `last_resume_time := t`;
`total_run_time` is untouched. -/
def playReading (t : ℚ) (s : St) : St × Out :=
  if s.running = true ∧ s.paused = false then
    (s, ⟨[], ["Already running."], []⟩)
  else
    let cs := if s.running = false ∧ s.paused = false then setupCmds else []
    ({ s with running := true, paused := false, last_resume_time := some t },
     ⟨[], ["Measurement started or resumed."], cs⟩)

/-- `pause_reading` (lines 210–222).  When running and not paused it sets
`paused := True` and adds `t - last_resume_time` to `total_run_time`
(Python would raise on `last_resume_time is None`; the reachable states
always have it set when running, so `getD 0` is only a formal default). -/
def pauseReading (t : ℚ) (s : St) : St × Out :=
  if s.running = false ∨ s.paused = true then
    (s, ⟨[], ["Not running or already paused."], []⟩)
  else
    ({ s with
        paused := true,
        total_run_time := s.total_run_time + (t - s.last_resume_time.getD 0) },
     ⟨[], ["Measurement paused."], []⟩)

/-- One iteration of `update_loop` (lines 286–318).  The flags are read
under the lock; when running and not paused the `READ?` query is issued
(its success is the `.ok v` case, covering query + float parse; `.error e`
is any exception in the body), `elapsed = total_run_time +
(now - last_resume_time)` and the point is emitted — `handle_new_data`
then appends it to the lists.  On an exception a status with the error
text is emitted and both flags are cleared (under the lock).  When not
active the iteration only sleeps.  The `Reading: … A @ … s` status uses
plain rendering in place of Python's `.3e`/`.1f` numeric formatting. -/
def updateIter (t : ℚ) (res : Except String ℚ) (s : St) : St × Out :=
  if s.running = true ∧ s.paused = false then
    match res with
    | .ok v =>
      let elapsed := s.total_run_time + (t - s.last_resume_time.getD 0)
      ({ s with
          timestamps := s.timestamps ++ [elapsed],
          readings := s.readings ++ [v] },
       ⟨[(elapsed, v)],
        ["Reading: " ++ toString v ++ " A @ " ++ toString elapsed ++ " s"],
        ["READ?"]⟩)
    | .error e =>
      ({ s with running := false, paused := false },
       ⟨[], ["Error: " ++ e], ["READ?"]⟩)
  else (s, ⟨[], [], []⟩)

instance : DecidableEq (Except String ℚ) := fun a b =>
  match a, b with
  | .ok x, .ok y =>
    if h : x = y then .isTrue (by rw [h]) else .isFalse (by simp [h])
  | .ok _, .error _ => .isFalse (by simp)
  | .error _, .ok _ => .isFalse (by simp)
  | .error x, .error y =>
    if h : x = y then .isTrue (by rw [h]) else .isFalse (by simp [h])

/-- The user-visible events that drive the pause/resume accounting: a
Play press, a Pause press, or one acquisition-loop iteration whose
`READ?` outcome is `res`, each stamped with the wall-clock time. -/
inductive Ev
  | play (t : ℚ)
  | pause (t : ℚ)
  | iter (t : ℚ) (res : Except String ℚ)
deriving DecidableEq, Repr

/-- Dispatch one event to the corresponding handler. -/
def step (s : St) : Ev → St × Out
  | .play t => playReading t s
  | .pause t => pauseReading t s
  | .iter t res => updateIter t res s

/-- Run a sequence of events from a state, collecting all emitted data
points in order. -/
def run (s : St) : List Ev → St × List (ℚ × ℚ)
  | [] => (s, [])
  | e :: evs =>
    let (s₁, o) := step s e
    let (s₂, ps) := run s₁ evs
    (s₂, o.points ++ ps)

/-- An event that is not a failed loop iteration. -/
def Ev.okEv : Ev → Prop
  | .iter _ (.error _) => False
  | _ => True

instance : DecidablePred Ev.okEv := fun e =>
  match e with
  | .play _ => .isTrue trivial
  | .pause _ => .isTrue trivial
  | .iter _ (.ok _) => .isTrue trivial
  | .iter _ (.error _) => .isFalse (fun h => h)

/-- An event list is error-free when every loop iteration's `READ?`
succeeded. -/
def ErrFree (evs : List Ev) : Prop := ∀ e ∈ evs, e.okEv

instance : DecidablePred ErrFree := fun evs =>
  List.decidableBAll Ev.okEv evs

/-! ### Claim-side accounting

Transcribed from the claim's words, not from the code: the accumulated
total is the sum of the durations of the completed run segments, each
added exactly once when Pause is pressed; the elapsed time of a reading
is that total plus the time since the most recent Play/resume. -/

/-- Claim-side accumulator: whether a run segment is open, when it was
opened, and the sum of the durations of all completed segments. -/
structure Acc where
  active : Bool
  activeSince : ℚ
  total : ℚ
deriving DecidableEq, Repr

def Acc.init : Acc := ⟨false, 0, 0⟩

/-- Claim-side transition: Play opens a segment (if none is open), Pause
closes the open segment adding its duration, a loop iteration changes
nothing. -/
def accStep (a : Acc) : Ev → Acc
  | .play t => if a.active then a else ⟨true, t, a.total⟩
  | .pause t => if a.active then ⟨false, a.activeSince, a.total + (t - a.activeSince)⟩ else a
  | .iter _ _ => a

/-- Claim-side elapsed time at wall-clock `t`: completed-segment total
plus the time since the most recent resume. -/
def Acc.elapsedAt (a : Acc) (t : ℚ) : ℚ := a.total + (t - a.activeSince)

/-- The elapsed stamps the claim predicts for the emitted readings of an
event sequence: a successful iteration while a segment is open emits one
point stamped `elapsedAt`. -/
def claimStamps (a : Acc) : List Ev → List ℚ
  | [] => []
  | .iter t (.ok _) :: evs =>
    (if a.active then [a.elapsedAt t] else []) ++ claimStamps a evs
  | e :: evs => claimStamps (accStep a e) evs

/-- Correspondence between the code state and the claim-side accumulator. -/
def Sim (s : St) (a : Acc) : Prop :=
  ((s.running = true ∧ s.paused = false) ↔ a.active = true) ∧
  s.total_run_time = a.total ∧
  (a.active = true → s.last_resume_time = some a.activeSince)

end Pico

namespace Nano

/-- One observable action of `KeithleyDeltaApp`'s worker: a `k6221.write`,
a `_relay_send` to the 2182A, a `k6221.query`, a `signals.status` message,
or a `signals.new_point` emission `(elapsed, voltage, current)`. -/
inductive DEvent
  | write (cmd : String)
  | relay (cmd : String)
  | query (cmd : String)
  | status (msg : String)
  | emit (elapsed volt cur : ℚ)
deriving DecidableEq, Repr

/-- How `_run_delta_mode` ended: setup aborted (caught setup exception),
normal completion (`return` after the buffer filled), a caught top-level
runtime error, or still polling when the modelled fuel ran out. -/
inductive RunExit
  | setupAborted
  | completed
  | runtimeError
  | outOfFuel
deriving DecidableEq, Repr

/-- Parse of a `TRAC:DATA?` reply (lines 443–447):
`[float(x) for x in raw.split(",") if x.strip()]` on the stripped reply;
`floats` models Python's `float` (`none` = `ValueError`, which the inner
`except` turns into an empty list, as does a query exception). -/
def parseReply (floats : String → Option ℚ) (raw : String) : List ℚ :=
  let r := Py.strip raw
  if r = "" then []
  else
    match ((Py.splitComma r).filter (fun x => Py.strip x ≠ "")).mapM floats with
    | some vs => vs
    | none => []

/-- The parsed `vals` of poll iteration `k` given the raw reply oracle:
a query exception (`.error`) yields `[]` via the inner `except`. -/
def valsFrom (floats : String → Option ℚ) (replies : ℕ → Except String String)
    (k : ℕ) : List ℚ :=
  match replies k with
  | .error _ => []
  | .ok raw => parseReply floats raw

/-- The points streamed by one poll iteration (lines 452–463): indices
`last_len` up to `vals.length`, each stamped `max(0.0, now - t0)` and
labelled with current `+I` at even buffer index, `-I` at odd. -/
def streamBatch (I t0 now : ℚ) (vals : List ℚ) (lastLen : ℕ) : List DEvent :=
  (List.range' lastLen (vals.length - lastLen)).map fun i =>
    .emit (if 0 ≤ now - t0 then now - t0 else 0) (vals.getD i 0)
      (if i % 2 = 0 then I else -I)

/-- The delta poll loop (lines 440–474), fuel-indexed.  Iteration `k`
queries `TRAC:DATA?`, streams the not-yet-emitted points when
`last_len < len(vals)` (updating `last_len`), and returns normally —
after a `Buffer full` status and a best-effort `*RST` — exactly when
`expected ≤ len(vals)`.  Returns the event trace and whether the loop
returned normally within `fuel` iterations. -/
def pollLoop (expected : ℕ) (I t0 : ℚ) (valsAt : ℕ → List ℚ)
    (nowAt : ℕ → ℚ) : ℕ → ℕ → ℕ → List DEvent × Bool
  | 0, _, _ => ([], false)
  | fuel + 1, k, lastLen =>
    let vals := valsAt k
    let batch := if lastLen < vals.length then
        streamBatch I t0 (nowAt k) vals lastLen else []
    let lastLen2 := if lastLen < vals.length then vals.length else lastLen
    if expected ≤ vals.length then
      (DEvent.query "TRAC:DATA?" :: batch ++
        [.status "Buffer full. Finishing...", .write "*RST"], true)
    else
      let rest := pollLoop expected I t0 valsAt nowAt fuel (k + 1) lastLen2
      (DEvent.query "TRAC:DATA?" :: batch ++ rest.1, rest.2)

/-- The 2182A configuration relayed after the NVPR check (lines 405–408). -/
def relayCfgCmds (nplc : ℚ) : List String :=
  ["SENS:FUNC \x27VOLT\x27", "SENS:VOLT:NPLC " ++ toString nplc,
   "TRIG:SOUR EXT", "TRIG:COUNT INF"]

/-- The 6221 delta parameters written after the 2182A configuration
(lines 412–418): high, low, delay, count, cold-switching, buffer size,
format. -/
def deltaParamCmds (I delay : ℚ) (expected : ℕ) : List String :=
  ["SOUR:DELT:HIGH " ++ toString I, "SOUR:DELT:LOW " ++ toString (-I),
   "SOUR:DELT:DEL " ++ toString delay,
   "SOUR:DELT:COUN " ++ toString expected, "SOUR:DELT:CAB ON",
   "TRAC:POIN " ++ toString expected, "FORM:ELEM READ"]

/-- Status text reported when the 2182A link check fails (line 400,
rendered through the outer handler at line 425). -/
def setupAbortMsg : String :=
  "Setup Error: 2182A not detected. Check RS-232 cable."

/-- The setup half of `_run_delta_mode` (lines 383–426).  `nvpr` is the
parsed reply to `SOUR:DELT:NVPR?` (`none` = query/`int` exception).  Any
value other than `1` raises, which the outer handler reports as
`setupAbortMsg` before returning; otherwise the 2182A and 6221 parameters
are sent and the delta armed.  The second component is `true` iff setup
succeeded (writes themselves are modelled as non-raising). -/
def setupTrace (I delay nplc : ℚ) (expected : ℕ) (nvpr : Option ℤ) :
    List DEvent × Bool :=
  let pre : List DEvent :=
    [.status "Configuring Delta Mode on 6221/2182A...", .write "*RST",
     .relay "*RST", .query "SOUR:DELT:NVPR?"]
  if nvpr = some 1 then
    (pre ++ [DEvent.status "Instruments synced. Sending parameters..."] ++
      (relayCfgCmds nplc).map DEvent.relay ++
      (deltaParamCmds I delay expected).map DEvent.write ++
      [DEvent.write "SOUR:DELT:ARM"], true)
  else
    (pre ++ [.status setupAbortMsg], false)

/-- The run half of `_run_delta_mode` (lines 429–477): status, `INIT:IMM`
(fallible, outcome `initRes` — a raise is caught by the outer handler as
a `Runtime Error` status), then the poll loop with `start_time = t0`. -/
def runPhase (expected : ℕ) (I t0 : ℚ) (initRes : Except String Unit)
    (valsAt : ℕ → List ℚ) (nowAt : ℕ → ℚ) (fuel : ℕ) :
    List DEvent × RunExit :=
  match initRes with
  | .error e =>
    ([.status "Running Delta...", .status ("Runtime Error: " ++ e)],
     .runtimeError)
  | .ok _ =>
    let p := pollLoop expected I t0 valsAt nowAt fuel 0 0
    (DEvent.status "Running Delta..." :: DEvent.write "INIT:IMM" :: p.1,
     if p.2 then .completed else .outOfFuel)

/-- All of `_run_delta_mode` (lines 372–477): setup, then — only if setup
did not abort — the run phase. -/
def runDeltaMode (I delay nplc : ℚ) (expected : ℕ) (nvpr : Option ℤ)
    (initRes : Except String Unit) (t0 : ℚ) (valsAt : ℕ → List ℚ)
    (nowAt : ℕ → ℚ) (fuel : ℕ) : List DEvent × RunExit :=
  let st := setupTrace I delay nplc expected nvpr
  if st.2 then
    let rp := runPhase expected I t0 initRes valsAt nowAt fuel
    (st.1 ++ rp.1, rp.2)
  else (st.1, .setupAborted)

/-- The value of `last_len` after `j` completed, non-returning poll
iterations, starting at poll index `k` with `last_len = ll`. -/
def llAfter (valsAt : ℕ → List ℚ) : ℕ → ℕ → ℕ → ℕ
  | _, ll, 0 => ll
  | k, ll, j + 1 =>
    llAfter valsAt (k + 1)
      (if ll < (valsAt k).length then (valsAt k).length else ll) j

/-- The event trace of the first `j` non-returning poll iterations,
starting at poll index `k` with `last_len = ll`. -/
def preTrace (I t0 : ℚ) (valsAt : ℕ → List ℚ) (nowAt : ℕ → ℚ) :
    ℕ → ℕ → ℕ → List DEvent
  | _, _, 0 => []
  | k, ll, j + 1 =>
    let vals := valsAt k
    let batch := if ll < vals.length then
        streamBatch I t0 (nowAt k) vals ll else []
    let ll2 := if ll < vals.length then vals.length else ll
    DEvent.query "TRAC:DATA?" :: batch ++
      preTrace I t0 valsAt nowAt (k + 1) ll2 j

/-- The currents of the streamed points of a trace, in emission order. -/
def emittedCurs (tr : List DEvent) : List ℚ :=
  tr.filterMap fun e => match e with
    | .emit _ _ c => some c
    | _ => none

/-- The status messages of a trace, in order. -/
def statusMsgs (tr : List DEvent) : List String :=
  tr.filterMap fun e => match e with
    | .status m => some m
    | _ => none

/-- The UI-side state of `KeithleyDeltaApp` touched by `start_clicked`
(lines 231–247): data lists, `start_time`, `running`, the stored NPLC,
the Start button's enabled state and the status bar text. -/
structure UISt where
  times : List ℚ
  voltages : List ℚ
  currents : List ℚ
  start_time : Option ℚ
  running : Bool
  nplcVal : ℚ
  btnStartEnabled : Bool
  statusMsg : String
deriving DecidableEq, Repr

/-- `start_clicked` (lines 231–247): returns immediately when `running`;
otherwise (under the lock) clears the lists and `start_time` when not
running, then sets `running`, stores the spin-box NPLC, disables the
Start button and sets the status. -/
def startClicked (spin : ℚ) (s : UISt) : UISt :=
  if s.running then s
  else
    let s1 := if s.running = false then
        { s with times := [], voltages := [], currents := [],
                 start_time := none }
      else s
    { s1 with running := true, nplcVal := spin, btnStartEnabled := false,
              statusMsg := "Starting Delta sequence..." }

end Nano

namespace Locks

/-- The shared run-state fields named by the lock-guarding claim. -/
inductive Flag
  | running
  | paused
  | totalRunTime
  | lastResumeTime
  | startTime
  | exiting
deriving DecidableEq, Repr

/-- One assignment to a shared flag in the source, tagged with whether it
occurs inside a `with self.lock:` block. -/
structure Mutation where
  flag : Flag
  locked : Bool
deriving DecidableEq, Repr

/-- `pico_controller.play_reading` (lines 192–207): `running`, `paused`,
`last_resume_time` are all assigned inside `with self.lock`. -/
def picoPlayMuts : List Mutation :=
  [⟨.running, true⟩, ⟨.paused, true⟩, ⟨.lastResumeTime, true⟩]

/-- `pico_controller.pause_reading` (lines 210–222): `paused` and
`total_run_time` are assigned inside `with self.lock`. -/
def picoPauseMuts : List Mutation :=
  [⟨.paused, true⟩, ⟨.totalRunTime, true⟩]

/-- `pico_controller.clear_data` (lines 224–251): `running`, `paused`,
`total_run_time`, `last_resume_time` are assigned with no `with
self.lock` anywhere in the method. -/
def picoClearMuts : List Mutation :=
  [⟨.running, false⟩, ⟨.paused, false⟩,
   ⟨.totalRunTime, false⟩, ⟨.lastResumeTime, false⟩]

/-- `pico_controller.update_loop` error path (lines 310–314): `running`
and `paused` are cleared inside `with self.lock`. -/
def picoLoopErrMuts : List Mutation :=
  [⟨.running, true⟩, ⟨.paused, true⟩]

/-- `Nanovoltmeter_controller.start_clicked` (lines 231–247): `running`
and `start_time` are assigned inside `with self.lock`. -/
def nanoStartMuts : List Mutation :=
  [⟨.startTime, true⟩, ⟨.running, true⟩]

/-- `Nanovoltmeter_controller.clear_clicked` (lines 249–255): `running`
and `start_time` are assigned inside `with self.lock`. -/
def nanoClearMuts : List Mutation :=
  [⟨.running, true⟩, ⟨.startTime, true⟩]

/-- `Nanovoltmeter_controller.run_done` (lines 347–351): `running` is
cleared inside `with self.lock`. -/
def nanoRunDoneMuts : List Mutation :=
  [⟨.running, true⟩]

/-- `Nanovoltmeter_controller._run_delta_mode` (lines 434–435):
`start_time` is set inside `with self.lock`. -/
def nanoWorkerMuts : List Mutation :=
  [⟨.startTime, true⟩]

/-- `Nanovoltmeter_controller.closeEvent` (lines 482–486): `running` is
cleared inside `with self.lock`, but `self.exiting = True` follows after
the `with` block has been left. -/
def nanoCloseMuts : List Mutation :=
  [⟨.running, true⟩, ⟨.exiting, false⟩]

/-- Every shared-flag mutation of both applications, by code path. -/
def allMuts : List Mutation :=
  picoPlayMuts ++ picoPauseMuts ++ picoClearMuts ++ picoLoopErrMuts ++
  nanoStartMuts ++ nanoClearMuts ++ nanoRunDoneMuts ++ nanoWorkerMuts ++
  nanoCloseMuts

end Locks

namespace PyPath

/-- Index of the last occurrence of `c` in `l` (Python `str.rfind`),
`none` when absent. -/
def rfindIdx (c : Char) (l : List Char) : Option ℕ :=
  match l.reverse.findIdx? (· = c) with
  | some j => some (l.length - 1 - j)
  | none => none

/-- The split position of CPython's `genericpath._splitext` (with
`sep = '/'`, `extsep = '.'`): the last dot, provided it lies after the
last separator and at least one character of the basename before it is
not a dot (so hidden files like `.bashrc` have no extension). -/
def splitextIdx (l : List Char) : Option ℕ :=
  match rfindIdx (Char.ofNat 46) l with
  | none => none
  | some di =>
    let si := match rfindIdx (Char.ofNat 47) l with
      | none => 0
      | some s => s + 1
    if si ≤ di ∧ ((l.drop si).take (di - si)).any (· ≠ Char.ofNat 46) then
      some di
    else none

/-- `os.path.splitext`: `(root, ext)` with `root ++ ext = p`. -/
def splitext (p : String) : String × String :=
  match splitextIdx p.toList with
  | some di => (⟨p.toList.take di⟩, ⟨p.toList.drop di⟩)
  | none => (p, "")

end PyPath

namespace Save

/-- One CSV data row of the picoammeter dump: timestamp, reading.
`pandas.to_csv` numeric rendering is abstracted to plain rendering. -/
def picoRow (t r : ℚ) : String := toString t ++ "," ++ toString r

/-- The lines `df.to_csv` writes for the picoammeter's
`DataFrame({"Time": timestamps, "current_A": readings})` (lines 264–268):
a header row, then one row per sample pairing the i-th timestamp with the
i-th reading. -/
def picoCsvLines (ts rs : List ℚ) : List String :=
  "Time,current_A" :: List.zipWith picoRow ts rs

/-- One CSV data row of the nanovoltmeter dump: time, voltage, current. -/
def nanoRow (t v c : ℚ) : String :=
  toString t ++ "," ++ toString v ++ "," ++ toString c

/-- Row list for three equal-length columns, pairing index-wise. -/
def zip3Rows : List ℚ → List ℚ → List ℚ → List String
  | t :: ts, v :: vs, c :: cs => nanoRow t v c :: zip3Rows ts vs cs
  | _, _, _ => []

/-- The lines `df.to_csv` writes for the nanovoltmeter's
`DataFrame({"Time (s)": times, "Voltage (V)": voltages, "Current (A)":
currents})` (lines 296–297). -/
def nanoCsvLines (ts vs cs : List ℚ) : List String :=
  "Time (s),Voltage (V),Current (A)" :: zip3Rows ts vs cs

/-- A file write performed by a save: target name and lines. -/
structure FileWrite where
  name : String
  lines : List String
deriving DecidableEq, Repr

/-- `pico_controller.save_data` (lines 253–270).  `nameInput` is the
filename field's text, `exi` models `os.path.exists`, `stamp` the
`datetime.now().strftime("%Y-%m-%d_at_%H:%M:%S")` string.  An empty
stripped filename saves nothing; an existing target is replaced by
`base_stamp` + extension.  The state is returned untouched. -/
def picoSaveData (exi : String → Bool) (stamp : String) (nameInput : String)
    (s : Pico.St) : Option FileWrite × Pico.St :=
  let filename := Py.strip nameInput
  if filename = "" then (none, s)
  else
    let target := if exi filename then
        (PyPath.splitext filename).1 ++ "_" ++ stamp ++
          (PyPath.splitext filename).2
      else filename
    (some ⟨target, picoCsvLines s.timestamps s.readings⟩, s)

/-- `Nanovoltmeter_controller.save_clicked` (lines 285–299).  `fname` is
the dialog's result (empty = cancelled, nothing written); the lists are
read but not modified. -/
def nanoSaveClicked (fname : String) (ts vs cs : List ℚ) :
    Option FileWrite :=
  if fname = "" then none
  else some ⟨fname, nanoCsvLines ts vs cs⟩

end Save

namespace Cex

/-- Float-parse oracle for the silent-query-error scenario. -/
def floats1 : String → Option ℚ := fun x => if x = "1.0" then some 1 else none

/-- Reply oracle: the first `TRAC:DATA?` query raises `"E1"`, the next
returns a full one-point buffer. -/
def replies1 : ℕ → Except String String :=
  fun k => if k = 0 then .error "E1" else .ok "1.0"

end Cex

/-! ## Proofs -/

namespace Pico

theorem playReading_points (t : ℚ) (s : St) : (playReading t s).2.points = [] := by
  unfold playReading
  split <;> rfl

theorem pauseReading_points (t : ℚ) (s : St) :
    (pauseReading t s).2.points = [] := by
  unfold pauseReading
  split <;> rfl

theorem sim_play (s : St) (a : Acc) (t : ℚ) (h : Sim s a) :
    Sim (playReading t s).1 (accStep a (.play t)) := by
  obtain ⟨hiff, htot, hres⟩ := h
  by_cases hA : a.active = true
  · have hg : s.running = true ∧ s.paused = false := hiff.mpr hA
    rw [playReading, if_pos hg]
    simpa [accStep, hA] using ⟨hiff, htot, hres⟩
  · have hg : ¬(s.running = true ∧ s.paused = false) := fun hh => hA (hiff.mp hh)
    rw [playReading, if_neg hg]
    simp only [accStep, hA, if_neg, Bool.not_eq_true] at *
    refine ⟨by simp [Sim, accStep, hA], htot, ?_⟩
    intro
    rfl

theorem sim_pause (s : St) (a : Acc) (t : ℚ) (h : Sim s a) :
    Sim (pauseReading t s).1 (accStep a (.pause t)) := by
  obtain ⟨hiff, htot, hres⟩ := h
  by_cases hA : a.active = true
  · have hg : s.running = true ∧ s.paused = false := hiff.mpr hA
    have hg2 : ¬(s.running = false ∨ s.paused = true) := by
      rcases hg with ⟨h1, h2⟩
      simp [h1, h2]
    rw [pauseReading, if_neg hg2]
    refine ⟨?_, ?_, ?_⟩
    · simp [accStep, hA]
    · simp only [accStep, hA, if_pos]
      rw [htot, hres hA]
      rfl
    · simp [accStep, hA]
  · have hg2 : s.running = false ∨ s.paused = true := by
      by_contra hc
      push_neg at hc
      exact hA (hiff.mp ⟨by simpa using hc.1, by simpa using hc.2⟩)
    rw [pauseReading, if_pos hg2]
    simpa [accStep, hA] using ⟨hiff, htot, hres⟩

theorem sim_iter_ok (s : St) (a : Acc) (t v : ℚ) (h : Sim s a) :
    Sim (updateIter t (.ok v) s).1 a ∧
    (updateIter t (.ok v) s).2.points.map Prod.fst =
      (if a.active = true then [a.elapsedAt t] else []) := by
  obtain ⟨hiff, htot, hres⟩ := h
  by_cases hA : a.active = true
  · have hg : s.running = true ∧ s.paused = false := hiff.mpr hA
    rw [updateIter, if_pos hg]
    refine ⟨⟨by simpa using hiff, htot, hres⟩, ?_⟩
    simp only [hA, if_pos, List.map]
    rw [htot, hres hA]
    rfl
  · have hg : ¬(s.running = true ∧ s.paused = false) := fun hh => hA (hiff.mp hh)
    rw [updateIter, if_neg hg]
    exact ⟨⟨hiff, htot, hres⟩, by simp [hA]⟩

theorem run_stamps (evs : List Ev) :
    ∀ (s : St) (a : Acc), Sim s a → ErrFree evs →
      (run s evs).2.map Prod.fst = claimStamps a evs := by
  induction evs with
  | nil => intro s a _ _; rfl
  | cons e evs ih =>
    intro s a hsim herr
    have he : e.okEv := herr e (List.mem_cons_self _ _)
    have herr2 : ErrFree evs := fun x hx => herr x (List.mem_cons_of_mem _ hx)
    cases e with
    | play t =>
      have hstep := sim_play s a t hsim
      simp only [run, step, claimStamps, List.map_append, playReading_points,
        List.map_nil, List.nil_append]
      exact ih _ _ hstep herr2
    | pause t =>
      have hstep := sim_pause s a t hsim
      simp only [run, step, claimStamps, List.map_append, pauseReading_points,
        List.map_nil, List.nil_append]
      exact ih _ _ hstep herr2
    | iter t res =>
      cases res with
      | error m => exact absurd he (by simp [Ev.okEv])
      | ok v =>
        obtain ⟨hsim2, hpts⟩ := sim_iter_ok s a t v hsim
        simp only [run, step, claimStamps, List.map_append, hpts]
        rw [ih _ _ hsim2 herr2]

theorem sim_init : Sim St.init Acc.init := by
  refine ⟨?_, rfl, ?_⟩
  · simp [St.init, Acc.init]
  · intro h
    simp [Acc.init] at h

end Pico

/-- Claim C1: every reading emitted by the picoammeter acquisition loop
carries elapsed time equal to the accumulated `total_run_time` (sum of
the durations of all completed run segments, each added exactly once on
Pause) plus the time since the most recent Play/resume, so paused time is
never counted; Pause while running-and-unpaused adds
`now - last_resume_time` to `total_run_time`, Play sets
`last_resume_time` to the current time and leaves `total_run_time`
unchanged. -/
theorem pico_elapsed_accounting (evs : List Pico.Ev) (h : Pico.ErrFree evs) :
    ((Pico.run Pico.St.init evs).2.map Prod.fst =
      Pico.claimStamps Pico.Acc.init evs) ∧
    (∀ (s : Pico.St) (t : ℚ), s.running = true → s.paused = false →
      (Pico.pauseReading t s).1.paused = true ∧
      (Pico.pauseReading t s).1.total_run_time =
        s.total_run_time + (t - s.last_resume_time.getD 0)) ∧
    (∀ (s : Pico.St) (t : ℚ),
      (Pico.playReading t s).1.total_run_time = s.total_run_time ∧
      (¬(s.running = true ∧ s.paused = false) →
        (Pico.playReading t s).1.last_resume_time = some t)) := by
  refine ⟨Pico.run_stamps evs _ _ Pico.sim_init h, ?_, ?_⟩
  · intro s t h1 h2
    have hg : ¬(s.running = false ∨ s.paused = true) := by simp [h1, h2]
    rw [Pico.pauseReading, if_neg hg]
    exact ⟨rfl, rfl⟩
  · intro s t
    by_cases hg : s.running = true ∧ s.paused = false
    · rw [Pico.playReading, if_pos hg]
      exact ⟨rfl, fun hc => absurd hg hc⟩
    · rw [Pico.playReading, if_neg hg]
      exact ⟨rfl, fun _ => rfl⟩

/-- Concrete check of C1: a play–read–pause–play–read trace; the second
segment's paused gap (3 → 7) is not counted. -/
theorem pico_elapsed_accounting_witness :
    Pico.ErrFree
      [Pico.Ev.play 1, .iter 2 (.ok 10), .pause 3, .play 7, .iter 9 (.ok 11)] ∧
    (Pico.run Pico.St.init
      [Pico.Ev.play 1, .iter 2 (.ok 10), .pause 3, .play 7,
       .iter 9 (.ok 11)]).2.map Prod.fst =
      Pico.claimStamps Pico.Acc.init
        [Pico.Ev.play 1, .iter 2 (.ok 10), .pause 3, .play 7,
         .iter 9 (.ok 11)] :=
  ⟨by decide,
   (pico_elapsed_accounting
     [Pico.Ev.play 1, .iter 2 (.ok 10), .pause 3, .play 7, .iter 9 (.ok 11)]
     (by decide)).1⟩

namespace Nano

theorem streamBatch_of_le (I t0 now : ℚ) (vals : List ℚ) (ll : ℕ)
    (h : vals.length ≤ ll) : streamBatch I t0 now vals ll = [] := by
  simp [streamBatch, Nat.sub_eq_zero_of_le h]

theorem pollLoop_done_iff (expected : ℕ) (I t0 : ℚ) (valsAt : ℕ → List ℚ)
    (nowAt : ℕ → ℚ) :
    ∀ (fuel k ll : ℕ),
      (pollLoop expected I t0 valsAt nowAt fuel k ll).2 = true ↔
        ∃ j, j < fuel ∧ expected ≤ (valsAt (k + j)).length
  | 0, k, ll => by simp [pollLoop]
  | fuel + 1, k, ll => by
    simp only [pollLoop]
    by_cases h : expected ≤ (valsAt k).length
    · rw [if_pos h]
      constructor
      · intro
        exact ⟨0, Nat.succ_pos _, by simpa using h⟩
      · intro
        rfl
    · rw [if_neg h]
      rw [pollLoop_done_iff expected I t0 valsAt nowAt fuel (k + 1) _]
      constructor
      · rintro ⟨j, hj, hlen⟩
        refine ⟨j + 1, by omega, ?_⟩
        have he : k + (j + 1) = k + 1 + j := by omega
        rw [he]
        exact hlen
      · rintro ⟨j, hj, hlen⟩
        cases j with
        | zero => exact absurd (by simpa using hlen) h
        | succ j =>
          refine ⟨j, by omega, ?_⟩
          have he : k + 1 + j = k + (j + 1) := by omega
          rw [he]
          exact hlen

theorem pollLoop_exit_trace (expected : ℕ) (I t0 : ℚ) (valsAt : ℕ → List ℚ)
    (nowAt : ℕ → ℚ) :
    ∀ (j fuel k ll : ℕ), j < fuel →
      (∀ i, i < j → (valsAt (k + i)).length < expected) →
      expected ≤ (valsAt (k + j)).length →
      pollLoop expected I t0 valsAt nowAt fuel k ll =
        (preTrace I t0 valsAt nowAt k ll j ++
          DEvent.query "TRAC:DATA?" ::
          (streamBatch I t0 (nowAt (k + j)) (valsAt (k + j))
            (llAfter valsAt k ll j) ++
           [DEvent.status "Buffer full. Finishing...",
            DEvent.write "*RST"]), true)
  | 0, fuel + 1, k, ll, _, _, hj => by
    simp only [pollLoop, preTrace, llAfter, Nat.add_zero]
    rw [if_pos (by simpa using hj)]
    by_cases hb : ll < (valsAt k).length
    · rw [if_pos hb]
      simp
    · rw [if_neg hb]
      rw [streamBatch_of_le _ _ _ _ _ (by omega)]
      simp
  | j + 1, fuel + 1, k, ll, hf, hlt, hj => by
    have h0 : (valsAt k).length < expected := by
      have := hlt 0 (Nat.succ_pos _)
      simpa using this
    simp only [pollLoop, preTrace, llAfter]
    rw [if_neg (by omega)]
    have ih := pollLoop_exit_trace expected I t0 valsAt nowAt j fuel (k + 1)
      (if ll < (valsAt k).length then (valsAt k).length else ll)
      (by omega)
      (fun i hi => by
        have := hlt (i + 1) (by omega)
        have he : k + (i + 1) = k + 1 + i := by omega
        rw [he] at this
        exact this)
      (by
        have he : k + (j + 1) = k + 1 + j := by omega
        rw [← he]
        exact hj)
    rw [ih]
    have he : k + (j + 1) = k + 1 + j := by omega
    rw [he]
    simp [List.append_assoc]

theorem emittedCurs_append (a b : List DEvent) :
    emittedCurs (a ++ b) = emittedCurs a ++ emittedCurs b :=
  List.filterMap_append a b _

theorem emittedCurs_query (q : String) (l : List DEvent) :
    emittedCurs (DEvent.query q :: l) = emittedCurs l := rfl

theorem emittedCurs_status (m : String) (l : List DEvent) :
    emittedCurs (DEvent.status m :: l) = emittedCurs l := rfl

theorem emittedCurs_write (c : String) (l : List DEvent) :
    emittedCurs (DEvent.write c :: l) = emittedCurs l := rfl

theorem emittedCurs_relay (c : String) (l : List DEvent) :
    emittedCurs (DEvent.relay c :: l) = emittedCurs l := rfl

theorem emittedCurs_nil : emittedCurs [] = [] := rfl

theorem emittedCurs_batch (I t0 now : ℚ) (vals : List ℚ) (l2 : ℕ) :
    emittedCurs (streamBatch I t0 now vals l2) =
      (List.range' l2 (vals.length - l2)).map
        (fun i => if i % 2 = 0 then I else -I) := by
  unfold streamBatch emittedCurs
  generalize List.range' l2 (vals.length - l2) = L
  induction L with
  | nil => rfl
  | cons a L ih => simp only [List.map_cons, List.filterMap_cons, ih]

theorem range'_glue (ll len m : ℕ) (h1 : ll ≤ len) (h2 : len ≤ m) :
    List.range' ll (len - ll) ++ List.range' len (m - len) =
      List.range' ll (m - ll) := by
  have h := List.range'_append ll (len - ll) (m - len) 1
  simp only [one_mul, mul_one] at h
  have e2 : ll + (len - ll) = len := by omega
  rw [e2] at h
  have e3 : m - len + (len - ll) = m - ll := by omega
  rw [e3] at h
  exact h

theorem pollLoop_curs (expected : ℕ) (I t0 : ℚ) (valsAt : ℕ → List ℚ)
    (nowAt : ℕ → ℚ) :
    ∀ (fuel k ll : ℕ),
      ∃ m, ll ≤ m ∧
        emittedCurs (pollLoop expected I t0 valsAt nowAt fuel k ll).1 =
          (List.range' ll (m - ll)).map
            (fun i => if i % 2 = 0 then I else -I)
  | 0, k, ll => ⟨ll, le_refl _, by simp [pollLoop, emittedCurs]⟩
  | fuel + 1, k, ll => by
    obtain ⟨m, hm, hcurs⟩ := pollLoop_curs expected I t0 valsAt nowAt fuel
      (k + 1) (if ll < (valsAt k).length then (valsAt k).length else ll)
    simp only [pollLoop]
    by_cases hb : ll < (valsAt k).length
    · simp only [if_pos hb] at hm hcurs ⊢
      by_cases hexit : expected ≤ (valsAt k).length
      · refine ⟨(valsAt k).length, by omega, ?_⟩
        rw [if_pos hexit]
        dsimp only
        rw [emittedCurs_append, emittedCurs_query, emittedCurs_batch]
        simp only [emittedCurs_status, emittedCurs_write, emittedCurs_nil,
          List.append_nil]
      · refine ⟨m, by omega, ?_⟩
        rw [if_neg hexit]
        dsimp only
        rw [emittedCurs_append, emittedCurs_query, emittedCurs_batch, hcurs,
          ← List.map_append, range'_glue ll (valsAt k).length m (by omega) hm]
    · simp only [if_neg hb] at hm hcurs ⊢
      have hempty : (valsAt k).length - ll = 0 := by omega
      by_cases hexit : expected ≤ (valsAt k).length
      · refine ⟨ll, le_refl _, ?_⟩
        rw [if_pos hexit]
        dsimp only
        simp only [List.singleton_append, emittedCurs_query]
        simp [emittedCurs, hempty]
      · refine ⟨m, hm, ?_⟩
        rw [if_neg hexit]
        dsimp only
        simp only [List.singleton_append, emittedCurs_query]
        exact hcurs

theorem mem_trace_cases {e x : DEvent} {X Y : List DEvent}
    (he : e ∈ x :: (X ++ Y)) : e = x ∨ e ∈ X ∨ e ∈ Y := by
  rcases List.mem_cons.mp he with h | h
  · exact Or.inl h
  · rcases List.mem_append.mp h with h | h
    · exact Or.inr (Or.inl h)
    · exact Or.inr (Or.inr h)

theorem pollLoop_events (expected : ℕ) (I t0 : ℚ) (valsAt : ℕ → List ℚ)
    (nowAt : ℕ → ℚ) :
    ∀ (fuel k ll : ℕ) (e : DEvent),
      e ∈ (pollLoop expected I t0 valsAt nowAt fuel k ll).1 →
      e = .query "TRAC:DATA?" ∨ (∃ a b c, e = .emit a b c) ∨
        e = .status "Buffer full. Finishing..." ∨ e = .write "*RST"
  | 0, k, ll, e => by simp [pollLoop]
  | fuel + 1, k, ll, e => by
    intro he
    simp only [pollLoop] at he
    have hbatch : ∀ now vals l2,
        e ∈ streamBatch I t0 now vals l2 → ∃ a b c, e = .emit a b c := by
      intro now vals l2 hmem
      simp only [streamBatch, List.mem_map] at hmem
      obtain ⟨i, _, hi⟩ := hmem
      exact ⟨_, _, _, hi.symm⟩
    have hX : ∀ now vals l2,
        e ∈ (if ll < vals.length then streamBatch I t0 now vals l2
          else []) → ∃ a b c, e = .emit a b c := by
      intro now vals l2 hmem
      by_cases hb : ll < vals.length
      · rw [if_pos hb] at hmem
        exact hbatch _ _ _ hmem
      · rw [if_neg hb] at hmem
        simp at hmem
    by_cases hexit : expected ≤ (valsAt k).length
    · rw [if_pos hexit] at he
      rcases mem_trace_cases he with rfl | hmem | hmem
      · exact Or.inl rfl
      · exact Or.inr (Or.inl (hX _ _ _ hmem))
      · rcases List.mem_cons.mp hmem with rfl | hmem
        · exact Or.inr (Or.inr (Or.inl rfl))
        · rcases List.mem_cons.mp hmem with rfl | hmem
          · exact Or.inr (Or.inr (Or.inr rfl))
          · simp at hmem
    · rw [if_neg hexit] at he
      rcases mem_trace_cases he with rfl | hmem | hmem
      · exact Or.inl rfl
      · exact Or.inr (Or.inl (hX _ _ _ hmem))
      · exact pollLoop_events expected I t0 valsAt nowAt fuel (k + 1) _ e hmem

end Nano

/-- Claim C2: the nanovoltmeter poll loop returns normally exactly when
the parsed reading list reaches the configured pair count; on that
iteration it first streams every reading not yet emitted (indices
`last_len` up to the list's length), then sends `*RST`, then returns;
while the parsed length stays below the count the loop never returns
normally. -/
theorem delta_completion_detection (expected : ℕ) (I t0 : ℚ)
    (valsAt : ℕ → List ℚ) (nowAt : ℕ → ℚ) (fuel k ll : ℕ) :
    ((Nano.pollLoop expected I t0 valsAt nowAt fuel k ll).2 = true ↔
      ∃ j, j < fuel ∧ expected ≤ (valsAt (k + j)).length) ∧
    (∀ j, j < fuel → (∀ i, i < j → (valsAt (k + i)).length < expected) →
      expected ≤ (valsAt (k + j)).length →
      Nano.pollLoop expected I t0 valsAt nowAt fuel k ll =
        (Nano.preTrace I t0 valsAt nowAt k ll j ++
          Nano.DEvent.query "TRAC:DATA?" ::
          (Nano.streamBatch I t0 (nowAt (k + j)) (valsAt (k + j))
            (Nano.llAfter valsAt k ll j) ++
           [Nano.DEvent.status "Buffer full. Finishing...",
            Nano.DEvent.write "*RST"]), true)) :=
  ⟨Nano.pollLoop_done_iff expected I t0 valsAt nowAt fuel k ll,
   fun j hf hlt hj =>
     Nano.pollLoop_exit_trace expected I t0 valsAt nowAt j fuel k ll hf hlt
       hj⟩

/-- Concrete check of C2: the buffer holds 1 of 2 points at poll 0 and
fills at poll 1; the loop exits there, streaming index 1 before `*RST`. -/
theorem delta_completion_detection_witness :
    (Nano.pollLoop 2 5 0 (fun k => if k = 0 then [1] else [1, 2])
      (fun _ => 0) 3 0 0).2 = true ∧
    Nano.pollLoop 2 5 0 (fun k => if k = 0 then [1] else [1, 2])
        (fun _ => 0) 3 0 0 =
      ([Nano.DEvent.query "TRAC:DATA?",
        Nano.DEvent.emit (if (0 : ℚ) ≤ 0 - 0 then 0 - 0 else 0) 1 5,
        Nano.DEvent.query "TRAC:DATA?",
        Nano.DEvent.emit (if (0 : ℚ) ≤ 0 - 0 then 0 - 0 else 0) 2 (-5),
        Nano.DEvent.status "Buffer full. Finishing...",
        Nano.DEvent.write "*RST"], true) :=
  ⟨(delta_completion_detection 2 5 0
      (fun k => if k = 0 then [1] else [1, 2]) (fun _ => 0) 3 0 0).1.mpr
      ⟨1, by decide, by decide⟩,
   by
    have h := (delta_completion_detection 2 5 0
      (fun k => if k = 0 then [1] else [1, 2]) (fun _ => 0) 3 0 0).2 1
      (by decide) (by decide) (by decide)
    rw [h]
    rfl⟩

/-- Claim C9: every point streamed during a delta run carries current
`+I` at even buffer index and `-I` at odd buffer index, so the streamed
currents alternate in sign starting with `+I`. -/
theorem delta_current_alternation (I delay nplc t0 : ℚ) (expected : ℕ)
    (nvpr : Option ℤ) (initRes : Except String Unit)
    (valsAt : ℕ → List ℚ) (nowAt : ℕ → ℚ) (fuel : ℕ) (j : ℕ) (c : ℚ)
    (h : (Nano.emittedCurs (Nano.runDeltaMode I delay nplc expected nvpr
        initRes t0 valsAt nowAt fuel).1).get? j = some c) :
    c = if j % 2 = 0 then I else -I := by
  by_cases hnv : nvpr = some 1
  · cases initRes with
    | error e =>
      exfalso
      revert h
      simp [Nano.runDeltaMode, Nano.setupTrace, Nano.runPhase,
        Nano.relayCfgCmds, Nano.deltaParamCmds, hnv, Nano.emittedCurs]
    | ok u =>
      have hdecomp : Nano.emittedCurs (Nano.runDeltaMode I delay nplc
          expected nvpr (.ok u) t0 valsAt nowAt fuel).1 =
          Nano.emittedCurs
            (Nano.pollLoop expected I t0 valsAt nowAt fuel 0 0).1 := by
        simp [Nano.runDeltaMode, Nano.setupTrace, Nano.runPhase,
          Nano.relayCfgCmds, Nano.deltaParamCmds, hnv, Nano.emittedCurs,
          List.filterMap_append]
      rw [hdecomp] at h
      obtain ⟨m, _, hcurs⟩ := Nano.pollLoop_curs expected I t0 valsAt nowAt
        fuel 0 0
      rw [hcurs, List.get?_map] at h
      by_cases hjm : j < m - 0
      · rw [List.get?_range' 0 1 hjm] at h
        have h2 : (if (0 + 1 * j) % 2 = 0 then I else -I) = c :=
          Option.some.inj h
        have hj2 : 0 + 1 * j = j := by omega
        rw [hj2] at h2
        exact h2.symm
      · rw [List.get?_eq_none.mpr
          (by simp only [List.length_range']; omega)] at h
        exact Option.noConfusion h
  · exfalso
    revert h
    simp [Nano.runDeltaMode, Nano.setupTrace, hnv, Nano.emittedCurs]

/-- Concrete check of C9: in the two-poll run of the C2 scenario the
streamed currents are `+5` at index 0 and `-5` at index 1. -/
theorem delta_current_alternation_witness :
    (Nano.emittedCurs (Nano.runDeltaMode 5 1 1 2 (some 1) (.ok ()) 0
        (fun k => if k = 0 then [1] else [1, 2]) (fun _ => 0) 3).1).get?
      1 = some (-5) ∧
    (-5 : ℚ) = if 1 % 2 = 0 then (5 : ℚ) else -5 :=
  ⟨by decide,
   delta_current_alternation 5 1 1 0 2 (some 1) (.ok ())
     (fun k => if k = 0 then [1] else [1, 2]) (fun _ => 0) 3 1 (-5)
     (by decide)⟩

namespace Nano

theorem append_ne_of_head (a b t : String) (ca ct : Char)
    (ha : a.data.head? = some ca) (ht : t.data.head? = some ct)
    (hne : ca ≠ ct) : a ++ b ≠ t := by
  intro h
  apply hne
  have h2 : a.data ++ b.data = t.data := by
    have hd : (a ++ b).data = a.data ++ b.data := rfl
    rw [← hd, h]
  cases hA : a.data with
  | nil =>
    rw [hA] at ha
    exact Option.noConfusion ha
  | cons x xs =>
    rw [hA] at ha h2
    have hca : x = ca := Option.some.inj ha
    have hxt : (x :: (xs ++ b.data)).head? = some ct := by
      rw [List.cons_append] at h2
      rw [h2]
      exact ht
    have hct : x = ct := Option.some.inj hxt
    exact hca.symm.trans hct

theorem writeCmd_ne_init (a b : String) (ca : Char)
    (ha : a.data.head? = some ca) (hne : ca ≠ Char.ofNat 73) :
    DEvent.write (a ++ b) ≠ DEvent.write "INIT:IMM" := by
  intro h
  have h2 : a ++ b = "INIT:IMM" := by injection h
  exact append_ne_of_head a b "INIT:IMM" ca (Char.ofNat 73) ha (by decide)
    hne h2

theorem setupTrace_abort (I delay nplc : ℚ) (expected : ℕ)
    (nvpr : Option ℤ) (h : nvpr ≠ some 1) :
    setupTrace I delay nplc expected nvpr =
      ([.status "Configuring Delta Mode on 6221/2182A...", .write "*RST",
        .relay "*RST", .query "SOUR:DELT:NVPR?", .status setupAbortMsg],
       false) := by
  simp [setupTrace, h]

theorem runDeltaMode_abort (I delay nplc t0 : ℚ) (expected : ℕ)
    (nvpr : Option ℤ) (initRes : Except String Unit)
    (valsAt : ℕ → List ℚ) (nowAt : ℕ → ℚ) (fuel : ℕ) (h : nvpr ≠ some 1) :
    runDeltaMode I delay nplc expected nvpr initRes t0 valsAt nowAt fuel =
      ([.status "Configuring Delta Mode on 6221/2182A...", .write "*RST",
        .relay "*RST", .query "SOUR:DELT:NVPR?", .status setupAbortMsg],
       .setupAborted) := by
  rw [runDeltaMode, setupTrace_abort I delay nplc expected nvpr h]
  simp

theorem runDeltaMode_ok_trace (I delay nplc t0 : ℚ) (expected : ℕ)
    (valsAt : ℕ → List ℚ) (nowAt : ℕ → ℚ) (fuel : ℕ) :
    runDeltaMode I delay nplc expected (some 1) (.ok ()) t0 valsAt nowAt
        fuel =
      ([DEvent.status "Configuring Delta Mode on 6221/2182A...",
        DEvent.write "*RST", DEvent.relay "*RST",
        DEvent.query "SOUR:DELT:NVPR?",
        DEvent.status "Instruments synced. Sending parameters..."] ++
       (relayCfgCmds nplc).map DEvent.relay ++
       (deltaParamCmds I delay expected).map DEvent.write ++
       [DEvent.write "SOUR:DELT:ARM", DEvent.status "Running Delta...",
        DEvent.write "INIT:IMM"] ++
       (pollLoop expected I t0 valsAt nowAt fuel 0 0).1,
       if (pollLoop expected I t0 valsAt nowAt fuel 0 0).2 then
         RunExit.completed else RunExit.outOfFuel) := by
  simp [runDeltaMode, setupTrace, runPhase, List.append_assoc]

theorem runDeltaMode_initErr (I delay nplc t0 : ℚ) (expected : ℕ)
    (e : String) (valsAt : ℕ → List ℚ) (nowAt : ℕ → ℚ) (fuel : ℕ) :
    runDeltaMode I delay nplc expected (some 1) (.error e) t0 valsAt nowAt
        fuel =
      ([DEvent.status "Configuring Delta Mode on 6221/2182A...",
        DEvent.write "*RST", DEvent.relay "*RST",
        DEvent.query "SOUR:DELT:NVPR?",
        DEvent.status "Instruments synced. Sending parameters..."] ++
       (relayCfgCmds nplc).map DEvent.relay ++
       (deltaParamCmds I delay expected).map DEvent.write ++
       [DEvent.write "SOUR:DELT:ARM", DEvent.status "Running Delta...",
        DEvent.status ("Runtime Error: " ++ e)],
       RunExit.runtimeError) := by
  simp [runDeltaMode, setupTrace, runPhase, List.append_assoc]

theorem pollLoop_status (expected : ℕ) (I t0 : ℚ) (valsAt : ℕ → List ℚ)
    (nowAt : ℕ → ℚ) (fuel k ll : ℕ) (m : String)
    (hm : m ∈ statusMsgs (pollLoop expected I t0 valsAt nowAt fuel k ll).1) :
    m = "Buffer full. Finishing..." := by
  simp only [statusMsgs, List.mem_filterMap] at hm
  obtain ⟨e, he, hme⟩ := hm
  rcases pollLoop_events expected I t0 valsAt nowAt fuel k ll e he with
    rfl | ⟨a, b, c, rfl⟩ | rfl | rfl
  · exact Option.noConfusion hme
  · exact Option.noConfusion hme
  · exact (Option.some.inj hme).symm
  · exact Option.noConfusion hme

theorem init_notin_pollLoop (expected : ℕ) (I t0 : ℚ)
    (valsAt : ℕ → List ℚ) (nowAt : ℕ → ℚ) (fuel k ll : ℕ) :
    DEvent.write "INIT:IMM" ∉
      (pollLoop expected I t0 valsAt nowAt fuel k ll).1 := by
  intro hmem
  rcases pollLoop_events expected I t0 valsAt nowAt fuel k ll _ hmem with
    h | ⟨a, b, c, h⟩ | h | h
  · exact DEvent.noConfusion h
  · exact DEvent.noConfusion h
  · exact DEvent.noConfusion h
  · have h2 : "INIT:IMM" = "*RST" := by injection h
    exact absurd h2 (by decide)

end Nano

/-- Claim C3: the delta sequence issues `INIT:IMM` only after, in this
order, the 6221 and 2182A resets, the `SOUR:DELT:NVPR?` check answering
`1`, the relayed 2182A sense/trigger parameters, the 6221 delta
parameters, and `SOUR:DELT:ARM`; when the NVPR check does not answer `1`
the sequence aborts with the `2182A not detected` connection-error
status and sends no delta parameter and no `INIT:IMM` (the only
writes/relays in the abort trace are the resets). -/
theorem delta_handshake_order (I delay nplc t0 : ℚ) (expected : ℕ)
    (nvpr : Option ℤ) (initRes : Except String Unit)
    (valsAt : ℕ → List ℚ) (nowAt : ℕ → ℚ) (fuel : ℕ) :
    (nvpr ≠ some 1 →
      (Nano.runDeltaMode I delay nplc expected nvpr initRes t0 valsAt nowAt
          fuel).1 =
        [.status "Configuring Delta Mode on 6221/2182A...", .write "*RST",
         .relay "*RST", .query "SOUR:DELT:NVPR?",
         .status Nano.setupAbortMsg] ∧
      (Nano.runDeltaMode I delay nplc expected nvpr initRes t0 valsAt nowAt
          fuel).2 = Nano.RunExit.setupAborted ∧
      (∀ c, Nano.DEvent.write c ∈ (Nano.runDeltaMode I delay nplc expected
          nvpr initRes t0 valsAt nowAt fuel).1 → c = "*RST") ∧
      (∀ c, Nano.DEvent.relay c ∈ (Nano.runDeltaMode I delay nplc expected
          nvpr initRes t0 valsAt nowAt fuel).1 → c = "*RST")) ∧
    (nvpr = some 1 → initRes = Except.ok () →
      (Nano.runDeltaMode I delay nplc expected nvpr initRes t0 valsAt nowAt
          fuel).1 =
        ([Nano.DEvent.status "Configuring Delta Mode on 6221/2182A...",
          Nano.DEvent.write "*RST", Nano.DEvent.relay "*RST",
          Nano.DEvent.query "SOUR:DELT:NVPR?",
          Nano.DEvent.status "Instruments synced. Sending parameters..."] ++
         (Nano.relayCfgCmds nplc).map Nano.DEvent.relay ++
         (Nano.deltaParamCmds I delay expected).map Nano.DEvent.write ++
         [Nano.DEvent.write "SOUR:DELT:ARM",
          Nano.DEvent.status "Running Delta...",
          Nano.DEvent.write "INIT:IMM"] ++
         (Nano.pollLoop expected I t0 valsAt nowAt fuel 0 0).1) ∧
      Nano.DEvent.write "INIT:IMM" ∉
        (Nano.pollLoop expected I t0 valsAt nowAt fuel 0 0).1 ∧
      (∀ e ∈ ([Nano.DEvent.status
            "Configuring Delta Mode on 6221/2182A...",
          Nano.DEvent.write "*RST", Nano.DEvent.relay "*RST",
          Nano.DEvent.query "SOUR:DELT:NVPR?",
          Nano.DEvent.status "Instruments synced. Sending parameters..."] ++
         (Nano.relayCfgCmds nplc).map Nano.DEvent.relay ++
         (Nano.deltaParamCmds I delay expected).map Nano.DEvent.write ++
         [Nano.DEvent.write "SOUR:DELT:ARM",
          Nano.DEvent.status "Running Delta..."]),
        e ≠ Nano.DEvent.write "INIT:IMM")) := by
  constructor
  · intro hnv
    have habort := Nano.runDeltaMode_abort I delay nplc t0 expected nvpr
      initRes valsAt nowAt fuel hnv
    rw [habort]
    refine ⟨rfl, rfl, ?_, ?_⟩
    · intro c hc
      simp at hc
      exact hc
    · intro c hc
      simp at hc
      exact hc
  · intro hnv hinit
    subst hnv
    subst hinit
    have hok := Nano.runDeltaMode_ok_trace I delay nplc t0 expected valsAt
      nowAt fuel
    rw [hok]
    refine ⟨by simp [List.append_assoc], Nano.init_notin_pollLoop _ _ _ _ _
      _ _ _, ?_⟩
    intro e he
    simp only [Nano.relayCfgCmds, Nano.deltaParamCmds, List.map_cons,
      List.map_nil] at he
    fin_cases he
    all_goals
      try exact Nano.writeCmd_ne_init _ _ (Char.ofNat 83) rfl (by decide)
    all_goals
      try exact Nano.writeCmd_ne_init _ _ (Char.ofNat 84) rfl (by decide)
    all_goals first
      | decide
      | simp

/-- Concrete check of C3: a failing NVPR check (`none`) yields exactly
the abort trace; with the check passing, `INIT:IMM` never occurs in the
poll phase. -/
theorem delta_handshake_order_witness :
    (Nano.runDeltaMode 1 1 1 2 none (.ok ()) 0 (fun _ => []) (fun _ => 0)
        1).1 =
      [.status "Configuring Delta Mode on 6221/2182A...", .write "*RST",
       .relay "*RST", .query "SOUR:DELT:NVPR?",
       .status Nano.setupAbortMsg] ∧
    Nano.DEvent.write "INIT:IMM" ∉
      (Nano.pollLoop 2 1 0 (fun _ => []) (fun _ => 0) 1 0 0).1 :=
  ⟨((delta_handshake_order 1 1 1 0 2 none (.ok ()) (fun _ => [])
      (fun _ => 0) 1).1 (by decide)).1,
   ((delta_handshake_order 1 1 1 0 2 (some 1) (.ok ()) (fun _ => [])
      (fun _ => 0) 1).2 rfl rfl).2.1⟩

/-- Claim C4 counterexample: in a delta run whose first `TRAC:DATA?`
query raises `"E1"` (second poll returns a full buffer), the exception
is swallowed into an empty reading list, the run completes, and no
status message containing the error text `E1` is ever emitted — contra
the claim that every exception caught in the delta run loop produces a
status message with the error text. -/
theorem error_reporting_cex :
    Cex.replies1 0 = Except.error "E1" ∧
    Nano.valsFrom Cex.floats1 Cex.replies1 0 = [] ∧
    (Nano.runDeltaMode 1 1 1 1 (some 1) (.ok ()) 0
      (Nano.valsFrom Cex.floats1 Cex.replies1) (fun _ => 0) 2).2 =
      Nano.RunExit.completed ∧
    Nano.statusMsgs (Nano.runDeltaMode 1 1 1 1 (some 1) (.ok ()) 0
      (Nano.valsFrom Cex.floats1 Cex.replies1) (fun _ => 0) 2).1 =
      ["Configuring Delta Mode on 6221/2182A...",
       "Instruments synced. Sending parameters...", "Running Delta...",
       "Buffer full. Finishing..."] ∧
    (∀ m ∈ Nano.statusMsgs (Nano.runDeltaMode 1 1 1 1 (some 1) (.ok ()) 0
        (Nano.valsFrom Cex.floats1 Cex.replies1) (fun _ => 0) 2).1,
      ¬ ∃ x y, m = x ++ "E1" ++ y) := by
  have hst : Nano.statusMsgs (Nano.runDeltaMode 1 1 1 1 (some 1) (.ok ())
      0 (Nano.valsFrom Cex.floats1 Cex.replies1) (fun _ => 0) 2).1 =
      ["Configuring Delta Mode on 6221/2182A...",
       "Instruments synced. Sending parameters...", "Running Delta...",
       "Buffer full. Finishing..."] := by decide
  refine ⟨rfl, rfl, by decide, hst, ?_⟩
  intro m hm hex
  obtain ⟨x, y, hxy⟩ := hex
  have hE : Char.ofNat 69 ∈ m.data := by
    rw [hxy]
    have h1 : (x ++ "E1" ++ y).data = (x.data ++ "E1".data) ++ y.data := rfl
    rw [h1]
    exact List.mem_append.mpr (Or.inl (List.mem_append.mpr
      (Or.inr (by decide))))
  rw [hst] at hm
  fin_cases hm
  · exact absurd hE (by decide)
  · exact absurd hE (by decide)
  · exact absurd hE (by decide)
  · exact absurd hE (by decide)

/-- Claim C4 (amended): every modelled exception is caught inside the
worker (the embedded handlers are total: each returns a result, so
nothing propagates), and the reported cases carry the error text: a
picoammeter acquisition error emits `Error: <text>` and clears both
flags; a delta setup failure aborts with the `2182A not detected`
status; an `INIT:IMM` failure ends the run with `Runtime Error: <text>`;
but a `TRAC:DATA?` exception inside the poll loop is silently treated as
an empty reading list: the poll loop's only status message is `Buffer
full. Finishing...`, never one carrying an error text. -/
theorem error_reporting_amended :
    (∀ (s : Pico.St) (t : ℚ) (e : String), s.running = true →
      s.paused = false →
      (Pico.updateIter t (.error e) s).1.running = false ∧
      (Pico.updateIter t (.error e) s).1.paused = false ∧
      (Pico.updateIter t (.error e) s).2.msgs = ["Error: " ++ e] ∧
      (∃ a, "Error: " ++ e = a ++ e)) ∧
    (∀ (I delay nplc t0 : ℚ) (expected : ℕ) (nvpr : Option ℤ)
      (initRes : Except String Unit) (valsAt : ℕ → List ℚ)
      (nowAt : ℕ → ℚ) (fuel : ℕ), nvpr ≠ some 1 →
      (Nano.runDeltaMode I delay nplc expected nvpr initRes t0 valsAt
        nowAt fuel).2 = Nano.RunExit.setupAborted ∧
      Nano.DEvent.status Nano.setupAbortMsg ∈
        (Nano.runDeltaMode I delay nplc expected nvpr initRes t0 valsAt
          nowAt fuel).1 ∧
      (∃ a b, Nano.setupAbortMsg = a ++ "2182A not detected" ++ b)) ∧
    (∀ (I delay nplc t0 : ℚ) (expected : ℕ) (e : String)
      (valsAt : ℕ → List ℚ) (nowAt : ℕ → ℚ) (fuel : ℕ),
      (Nano.runDeltaMode I delay nplc expected (some 1) (.error e) t0
        valsAt nowAt fuel).2 = Nano.RunExit.runtimeError ∧
      Nano.DEvent.status ("Runtime Error: " ++ e) ∈
        (Nano.runDeltaMode I delay nplc expected (some 1) (.error e) t0
          valsAt nowAt fuel).1 ∧
      (∃ a, "Runtime Error: " ++ e = a ++ e)) ∧
    (∀ (floats : String → Option ℚ)
      (replies : ℕ → Except String String) (k : ℕ) (e : String),
      replies k = .error e → Nano.valsFrom floats replies k = []) ∧
    (∀ (expected : ℕ) (I t0 : ℚ) (valsAt : ℕ → List ℚ) (nowAt : ℕ → ℚ)
      (fuel k ll : ℕ) (m : String),
      m ∈ Nano.statusMsgs
        (Nano.pollLoop expected I t0 valsAt nowAt fuel k ll).1 →
      m = "Buffer full. Finishing...") := by
  refine ⟨?_, ?_, ?_, ?_, ?_⟩
  · intro s t e h1 h2
    rw [Pico.updateIter.eq_def, if_pos ⟨h1, h2⟩]
    exact ⟨rfl, rfl, rfl, "Error: ", rfl⟩
  · intro I delay nplc t0 expected nvpr initRes valsAt nowAt fuel hnv
    rw [Nano.runDeltaMode_abort I delay nplc t0 expected nvpr initRes
      valsAt nowAt fuel hnv]
    refine ⟨rfl, by simp, "Setup Error: ", ". Check RS-232 cable.",
      by decide⟩
  · intro I delay nplc t0 expected e valsAt nowAt fuel
    rw [Nano.runDeltaMode_initErr I delay nplc t0 expected e valsAt nowAt
      fuel]
    refine ⟨rfl, by simp, "Runtime Error: ", rfl⟩
  · intro floats replies k e hrep
    rw [Nano.valsFrom, hrep]
  · intro expected I t0 valsAt nowAt fuel k ll m hm
    exact Nano.pollLoop_status expected I t0 valsAt nowAt fuel k ll m hm

/-- Concrete check of the amended C4: a failing `READ?` in a running,
unpaused picoammeter clears both flags and reports `Error: boom`. -/
theorem error_reporting_amended_witness :
    (Pico.updateIter 1 (.error "boom")
      ⟨[], [], true, false, 0, some 0⟩).1.running = false ∧
    (Pico.updateIter 1 (.error "boom")
      ⟨[], [], true, false, 0, some 0⟩).1.paused = false ∧
    (Pico.updateIter 1 (.error "boom")
      ⟨[], [], true, false, 0, some 0⟩).2.msgs = ["Error: " ++ "boom"] ∧
    (∃ a, "Error: " ++ "boom" = a ++ "boom") :=
  error_reporting_amended.1 ⟨[], [], true, false, 0, some 0⟩ 1 "boom" rfl
    rfl

/-- Claim C7: an iteration of the picoammeter polling loop that observes
the app paused or not running issues no `READ?` query, emits no data
point (and changes nothing: it only sleeps); a `READ?` query or an
emitted point only happens in an iteration that observed `running` true
and `paused` false. -/
theorem poll_only_when_active (s : Pico.St) (t : ℚ) (res : Except String ℚ) :
    (¬(s.running = true ∧ s.paused = false) →
      Pico.updateIter t res s = (s, ⟨[], [], []⟩)) ∧
    (((Pico.updateIter t res s).2.cmds ≠ [] ∨
      (Pico.updateIter t res s).2.points ≠ []) →
      s.running = true ∧ s.paused = false) ∧
    (s.running = true ∧ s.paused = false →
      "READ?" ∈ (Pico.updateIter t res s).2.cmds) := by
  by_cases hg : s.running = true ∧ s.paused = false
  · refine ⟨fun hc => absurd hg hc, fun _ => hg, fun _ => ?_⟩
    rw [Pico.updateIter.eq_def, if_pos hg]
    cases res <;> simp
  · rw [Pico.updateIter.eq_def, if_neg hg]
    exact ⟨fun _ => rfl, fun hc => by simp at hc, fun hc => absurd hc hg⟩

/-- Concrete check of C7: a paused state yields a no-op iteration. -/
theorem poll_only_when_active_witness :
    ¬((⟨[], [], true, true, 0, some 1⟩ : Pico.St).running = true ∧
      (⟨[], [], true, true, 0, some 1⟩ : Pico.St).paused = false) ∧
    Pico.updateIter 5 (.ok 2) ⟨[], [], true, true, 0, some 1⟩ =
      (⟨[], [], true, true, 0, some 1⟩, ⟨[], [], []⟩) :=
  ⟨by decide,
   (poll_only_when_active ⟨[], [], true, true, 0, some 1⟩ 5 (.ok 2)).1
     (by decide)⟩

/-- Claim C10: the nanovoltmeter's Start handler is a no-op while a run
is in progress, and pressing Start twice in succession has the same
effect as pressing it once. -/
theorem start_noop_when_running (s : Nano.UISt) (spin : ℚ) :
    (s.running = true → Nano.startClicked spin s = s) ∧
    Nano.startClicked spin (Nano.startClicked spin s) =
      Nano.startClicked spin s := by
  constructor
  · intro h
    simp [Nano.startClicked, h]
  · by_cases h : s.running = true
    · simp [Nano.startClicked, h]
    · have h2 : s.running = false := by simpa using h
      simp [Nano.startClicked, h2]

/-- Concrete check of C10: Start on a running state changes nothing. -/
theorem start_noop_when_running_witness :
    (⟨[1], [2], [3], some 0, true, 1, false, "x"⟩ : Nano.UISt).running =
      true ∧
    Nano.startClicked 7 ⟨[1], [2], [3], some 0, true, 1, false, "x"⟩ =
      ⟨[1], [2], [3], some 0, true, 1, false, "x"⟩ :=
  ⟨rfl,
   (start_noop_when_running ⟨[1], [2], [3], some 0, true, 1, false, "x"⟩
     7).1 rfl⟩

/-- Claim C5 counterexample: the picoammeter's `clear_data` mutates the
shared flag `running` (and the other run-state fields) without holding
the lock, so not every mutation of the shared run-state flags is
performed under the application's lock. -/
theorem lock_guard_cex :
    (Locks.Mutation.mk .running false) ∈ Locks.picoClearMuts ∧
    Locks.allMuts.all (fun m => m.locked) = false := by decide

/-- Claim C5 (amended): every mutation of the shared run-state flags in
the picoammeter's play, pause and worker-loop error paths and in the
nanovoltmeter's start, clear, run-done and worker paths holds the lock,
and the nanovoltmeter's `closeEvent` clears `running` under the lock;
but `clear_data` in the picoammeter mutates all four of its run-state
fields without the lock, and `closeEvent` sets `exiting` after leaving
the locked block. -/
theorem lock_guard_amended :
    (Locks.picoPlayMuts ++ Locks.picoPauseMuts ++ Locks.picoLoopErrMuts ++
     Locks.nanoStartMuts ++ Locks.nanoClearMuts ++ Locks.nanoRunDoneMuts ++
     Locks.nanoWorkerMuts).all (fun m => m.locked) = true ∧
    Locks.picoClearMuts.all (fun m => !m.locked) = true ∧
    ((Locks.Mutation.mk .running true) ∈ Locks.nanoCloseMuts ∧
     (Locks.Mutation.mk .exiting false) ∈ Locks.nanoCloseMuts) := by decide

namespace PyPath

theorem mk_append (a b : List Char) :
    String.mk a ++ String.mk b = String.mk (a ++ b) := rfl

theorem splitext_concat (p : String) :
    (splitext p).1 ++ (splitext p).2 = p := by
  unfold splitext
  cases h : splitextIdx p.toList with
  | none => simp
  | some di =>
    show String.mk (p.toList.take di) ++ String.mk (p.toList.drop di) = p
    rw [mk_append, List.take_append_drop]
    rfl

end PyPath

namespace Save

theorem zipWith_picoRow_get :
    ∀ (ts rs : List ℚ) (i : ℕ) (t r : ℚ), ts.get? i = some t →
      rs.get? i = some r →
      (List.zipWith picoRow ts rs).get? i = some (picoRow t r)
  | [], _, i, _, _, h, _ => by simp at h
  | _ :: _, [], i, _, _, _, h => by simp at h
  | x :: xs, y :: ys, 0, t, r, h1, h2 => by
    simp only [List.get?_cons_zero, Option.some.injEq] at h1 h2
    simp [h1, h2]
  | x :: xs, y :: ys, i + 1, t, r, h1, h2 => by
    simp only [List.get?_cons_succ] at h1 h2
    simpa using zipWith_picoRow_get xs ys i t r h1 h2

theorem zip3Rows_length :
    ∀ (ts vs cs : List ℚ), ts.length = vs.length → vs.length = cs.length →
      (zip3Rows ts vs cs).length = ts.length
  | [], [], _, _, _ => rfl
  | [], _ :: _, _, h1, _ => by simp at h1
  | _ :: _, [], _, h1, _ => by simp at h1
  | _ :: _, _ :: _, [], _, h2 => by simp at h2
  | x :: xs, y :: ys, z :: zs, h1, h2 => by
    simp only [zip3Rows, List.length_cons]
    rw [zip3Rows_length xs ys zs (by simpa using h1) (by simpa using h2)]

theorem zip3Rows_get :
    ∀ (ts vs cs : List ℚ) (i : ℕ) (t v c : ℚ), ts.get? i = some t →
      vs.get? i = some v → cs.get? i = some c →
      (zip3Rows ts vs cs).get? i = some (nanoRow t v c)
  | [], _, _, i, _, _, _, h, _, _ => by simp at h
  | _ :: _, [], _, i, _, _, _, _, h, _ => by simp at h
  | _ :: _, _ :: _, [], i, _, _, _, _, _, h => by simp at h
  | x :: xs, y :: ys, z :: zs, 0, t, v, c, h1, h2, h3 => by
    simp only [List.get?_cons_zero, Option.some.injEq] at h1 h2 h3
    simp [zip3Rows, h1, h2, h3]
  | x :: xs, y :: ys, z :: zs, i + 1, t, v, c, h1, h2, h3 => by
    simp only [List.get?_cons_succ] at h1 h2 h3
    simpa [zip3Rows] using zip3Rows_get xs ys zs i t v c h1 h2 h3

end Save

/-- Claim C6: with a non-empty chosen filename, each app's save writes a
flat CSV of one header row plus one row per sample, the i-th data row
pairing the i-th timestamp with the i-th reading (and, for the
nanovoltmeter, the i-th current), and leaves the in-memory lists
unchanged. -/
theorem csv_save_rows (exi : String → Bool) (stamp nameInput : String)
    (s : Pico.St) (hn : Py.strip nameInput ≠ "")
    (hlen : s.timestamps.length = s.readings.length)
    (fname : String) (ts vs cs : List ℚ) (hf : fname ≠ "")
    (h1 : ts.length = vs.length) (h2 : vs.length = cs.length) :
    (∃ w, (Save.picoSaveData exi stamp nameInput s).1 = some w ∧
      w.lines.length = s.timestamps.length + 1 ∧
      w.lines.get? 0 = some "Time,current_A" ∧
      (∀ (i : ℕ) (t r : ℚ), s.timestamps.get? i = some t →
        s.readings.get? i = some r →
        w.lines.get? (i + 1) = some (Save.picoRow t r))) ∧
    (Save.picoSaveData exi stamp nameInput s).2 = s ∧
    (∃ w, Save.nanoSaveClicked fname ts vs cs = some w ∧
      w.lines.length = ts.length + 1 ∧
      w.lines.get? 0 = some "Time (s),Voltage (V),Current (A)" ∧
      (∀ (i : ℕ) (t v c : ℚ), ts.get? i = some t →
        vs.get? i = some v → cs.get? i = some c →
        w.lines.get? (i + 1) = some (Save.nanoRow t v c))) := by
  refine ⟨?_, ?_, ?_⟩
  · refine ⟨⟨if exi (Py.strip nameInput) then
        (PyPath.splitext (Py.strip nameInput)).1 ++ "_" ++ stamp ++
          (PyPath.splitext (Py.strip nameInput)).2
      else Py.strip nameInput,
      Save.picoCsvLines s.timestamps s.readings⟩, ?_, ?_, rfl, ?_⟩
    · simp only [Save.picoSaveData]
      rw [if_neg hn]
    · simp only [Save.picoCsvLines, List.length_cons, List.length_zipWith,
        hlen, min_self]
    · intro i t r ht hr
      simp only [Save.picoCsvLines, List.get?_cons_succ]
      exact Save.zipWith_picoRow_get _ _ i t r ht hr
  · simp only [Save.picoSaveData]
    rw [if_neg hn]
  · refine ⟨⟨fname, Save.nanoCsvLines ts vs cs⟩, ?_, ?_, rfl, ?_⟩
    · simp only [Save.nanoSaveClicked]
      rw [if_neg hf]
    · simp only [Save.nanoCsvLines, List.length_cons]
      rw [Save.zip3Rows_length ts vs cs h1 h2]
    · intro i t v c ht hv hc
      simp only [Save.nanoCsvLines, List.get?_cons_succ]
      exact Save.zip3Rows_get _ _ _ i t v c ht hv hc

/-- Concrete check of C6: two picoammeter samples. -/
theorem csv_save_rows_witness :
    ∃ w, (Save.picoSaveData (fun _ => false) "S" "a.csv"
        ⟨[5, 6], [1, 2], false, false, 0, none⟩).1 = some w ∧
      w.lines.length =
        (⟨[5, 6], [1, 2], false, false, 0, none⟩ :
          Pico.St).timestamps.length + 1 ∧
      w.lines.get? 0 = some "Time,current_A" ∧
      (∀ (i : ℕ) (t r : ℚ),
        (⟨[5, 6], [1, 2], false, false, 0, none⟩ :
          Pico.St).timestamps.get? i = some t →
        (⟨[5, 6], [1, 2], false, false, 0, none⟩ :
          Pico.St).readings.get? i = some r →
        w.lines.get? (i + 1) = some (Save.picoRow t r)) :=
  (csv_save_rows (fun _ => false) "S" "a.csv"
    ⟨[5, 6], [1, 2], false, false, 0, none⟩ (by decide) rfl
    "b.csv" [1] [2] [3] (by decide) rfl rfl).1

/-- Claim C8: when the chosen picoammeter filename names an existing
file, the data is written to a fresh name — base, underscore, timestamp,
extension — distinct from the chosen name, so the pre-existing file is
not overwritten. -/
theorem save_no_overwrite (exi : String → Bool) (stamp nameInput : String)
    (s : Pico.St) (hex : exi (Py.strip nameInput) = true)
    (hne : Py.strip nameInput ≠ "") :
    ∃ w, (Save.picoSaveData exi stamp nameInput s).1 = some w ∧
      w.name = (PyPath.splitext (Py.strip nameInput)).1 ++ "_" ++ stamp ++
        (PyPath.splitext (Py.strip nameInput)).2 ∧
      w.name ≠ Py.strip nameInput := by
  refine ⟨⟨(PyPath.splitext (Py.strip nameInput)).1 ++ "_" ++ stamp ++
      (PyPath.splitext (Py.strip nameInput)).2,
    Save.picoCsvLines s.timestamps s.readings⟩, ?_, rfl, ?_⟩
  · simp only [Save.picoSaveData]
    rw [if_neg hne, if_pos hex]
  · intro h
    have hlen := congrArg String.length h
    rw [String.length_append, String.length_append, String.length_append]
      at hlen
    have hc := congrArg String.length
      (PyPath.splitext_concat (Py.strip nameInput))
    rw [String.length_append] at hc
    have hu : ("_" : String).length = 1 := rfl
    omega

/-- Concrete check of C8: saving to an existing `readings.csv` targets
`readings_S.csv` instead. -/
theorem save_no_overwrite_witness :
    ∃ w, (Save.picoSaveData (fun _ => true) "S" "readings.csv"
        Pico.St.init).1 = some w ∧
      w.name = (PyPath.splitext (Py.strip "readings.csv")).1 ++ "_" ++ "S" ++
        (PyPath.splitext (Py.strip "readings.csv")).2 ∧
      w.name ≠ Py.strip "readings.csv" :=
  save_no_overwrite (fun _ => true) "S" "readings.csv" Pico.St.init rfl
    (by decide)

end KeithleySpec
